import Mathlib

/-!
A verification development for the `upscayv.py` video upscaling script.

The script orchestrates ffmpeg, ffprobe and the Upscayl binary to upscale a
video frame by frame.  The definitions below are a shallow embedding of its
pure decision logic: outcomes of `subprocess.run` calls and filesystem facts
(whether an output file exists) are modelled as explicit inputs, strings are
Lean strings, machine integers are `Nat`/`Int`, and the parallel
`ProcessPoolExecutor` loop is modelled as a small-step state machine over the
scheduler's nondeterministic choice of which in-flight task completes next.
-/

/- ## String helpers (Python `str.startswith`, the `in` operator, slicing) -/

/-- Character-list test that `needle` appears at the start of `hay`. -/
def isPrefixL : List Char → List Char → Bool
  | [], _ => true
  | _ :: _, [] => false
  | a :: as, b :: bs => a == b && isPrefixL as bs

/-- Substring test on character lists; models Python's `in` operator on strings. -/
def containsSub (hay needle : List Char) : Bool :=
  match hay with
  | [] => isPrefixL needle []
  | c :: t => isPrefixL needle (c :: t) || containsSub t needle

/-- Substring test on strings; models Python's `needle in hay`. -/
def strContainsSub (hay needle : String) : Bool :=
  containsSub hay.data needle.data

/-- Models Python `str.lower()`. -/
def strLower (s : String) : String :=
  ⟨s.data.map Char.toLower⟩

/-- Models the Python slice `s[:n]`. -/
def strTake (s : String) (n : Nat) : String :=
  ⟨s.data.take n⟩

/- ## Encoder probing (`test_encoder`, `detect_video_encoder`) -/

/-- Outcome of one `subprocess.run` call: normal completion with an exit code
and the captured stdout/stderr text, or an exception (a timeout, a missing
executable, or any other raised error). -/
inductive ProcOutcome where
  | ok (returncode : Int) (stdout stderr : String)
  | exn (msg : String)
deriving DecidableEq

/-- Embedding of `test_encoder` (upscayv.py lines 128-193).  The probing
subprocess's outcome is an explicit input.  The function returns `true` iff
the subprocess exited with code zero and no error keyword occurs,
case-insensitively, in its stderr text; every exception path returns
`false`. -/
def test_encoder (outcome : ProcOutcome) (error_keywords : List String) : Bool :=
  match outcome with
  | ProcOutcome.ok rc _ stderr =>
    rc == 0 && !(error_keywords.any fun err => strContainsSub (strLower stderr) (strLower err))
  | ProcOutcome.exn _ => false

/-- The NVENC failure keywords from `detect_video_encoder` (lines 213-221). -/
def nvenc_errors : List String :=
  ["No NVENC capable devices found", "No capable devices found", "NVENC not available",
   "Cannot load", "No such filter", "not found", "unable to find"]

/-- The AMF failure keywords from `detect_video_encoder` (lines 242-248). -/
def amf_errors : List String :=
  ["No capable devices found", "AMF not available", "Cannot load", "No such filter",
   "Failed to initialize", "AMF runtime"]

/-- The subprocess outcomes that `detect_video_encoder` can observe: the
`ffmpeg -hide_banner -encoders` listing and the two candidate encoder tests. -/
structure EncoderEnv where
  encodersProbe : ProcOutcome
  nvencTest : ProcOutcome
  amfTest : ProcOutcome
deriving DecidableEq

/-- Embedding of `detect_video_encoder` (lines 195-265) instrumented with the
list of encoder names for which a `test_encoder` subprocess is actually run.
The first component is the returned encoder string, the second the tests that
were invoked, in order. -/
def detectVideoEncoderT (env : EncoderEnv) : String × List String :=
  match env.encodersProbe with
  | ProcOutcome.exn _ => ("libx264", [])
  | ProcOutcome.ok rc stdout _ =>
    if rc ≠ 0 then ("libx264", [])
    else if strContainsSub stdout "h264_nvenc" then
      if test_encoder env.nvencTest nvenc_errors then ("h264_nvenc", ["h264_nvenc"])
      else if strContainsSub stdout "h264_amf" then
        if test_encoder env.amfTest amf_errors then ("h264_amf", ["h264_nvenc", "h264_amf"])
        else ("libx264", ["h264_nvenc", "h264_amf"])
      else ("libx264", ["h264_nvenc"])
    else if strContainsSub stdout "h264_amf" then
      if test_encoder env.amfTest amf_errors then ("h264_amf", ["h264_amf"])
      else ("libx264", ["h264_amf"])
    else ("libx264", [])

/-- The encoder string `detect_video_encoder` returns. -/
def detect_video_encoder (env : EncoderEnv) : String :=
  (detectVideoEncoderT env).1

/- ## Worker-count heuristic (`calculate_optimal_workers`) -/

/-- Embedding of `calculate_optimal_workers` (lines 326-349).  Python's
`int(cpu_count * 0.75)` is `3 * cpu_count / 4` in exact arithmetic (0.75 is a
dyadic rational, so the float product is exact for any realistic core count
and `int` truncates the positive value downwards); `cpu_count // 2` is `Nat`
division; `min(a, b, c)` is the three-way minimum. -/
def calculate_optimal_workers (cpu_count gpu_count : Nat) (has_gpu_encoder : Bool) : Nat :=
  let recommended :=
    if 0 < gpu_count then
      let r := if gpu_count = 1 then max 1 (min (cpu_count / 2) 4) else min gpu_count cpu_count
      max 2 r
    else
      max 1 (3 * cpu_count / 4)
  min (min recommended cpu_count) 8

/- ## Resolution fitting (`run_upscale` lines 484-513) -/

/-- The interactive resolution menu `RES_OPTIONS` (lines 415-420):
menu key, resolution label, target width, target height. -/
def RES_OPTIONS : List (String × String × Nat × Nat) :=
  [("1", "HD", 1280, 720), ("2", "FHD", 1920, 1080), ("3", "4K", 3840, 2160),
   ("4", "8K", 7680, 4320)]

/-- Embedding of the aspect-fit computation in `run_upscale` (lines 484-509),
before the final rounding to even.  The float comparison
`aspect_ratio > target_aspect` is `w / h > tw / th`, i.e. `tw * h < w * th`
in exact arithmetic, and `int(x * a / b)` is the `Nat` floor division
`x * a / b` (all quantities are positive). -/
def fitDimsRaw (w h tw th : Nat) : Nat × Nat :=
  if tw * h < w * th then
    let fw := th * w / h
    if tw < fw then (tw, tw * h / w) else (fw, th)
  else
    let fh := tw * h / w
    if th < fh then (th * w / h, th) else (tw, fh)

/-- The final dimensions of `run_upscale`: the aspect fit, with both axes
rounded down to the nearest even integer (lines 511-513). -/
def fitDims (w h tw th : Nat) : Nat × Nat :=
  let p := fitDimsRaw w h tw th
  (p.1 - p.1 % 2, p.2 - p.2 % 2)

/-- The pair `(fw, fh)` preserves the aspect ratio `w : h` up to integer
rounding: one of the axes is the floor of the exact value determined by the
other axis and the source ratio. -/
def ratioOk (w h fw fh : Nat) : Prop :=
  (fw * h ≤ fh * w ∧ fh * w < (fw + 1) * h) ∨ (fh * w ≤ fw * h ∧ fw * h < (fh + 1) * w)

/- ## The parallel frame-upscaling loop (`run_upscale` lines 636-748) -/

/-- One entry of the `failed_frames` list: the dict
`{'frame': ..., 'returncode': ..., 'stderr': ...}` (lines 689-693, 700-704,
721-725). -/
structure Failure where
  frame : String
  returncode : Int
  stderr : String
deriving DecidableEq

/-- What the parent observes when one frame's future completes:
`future.result()` either returns the result dict of `upscale_single_frame`
(exit code, stderr text, and whether the output file exists on disk), or
raises an exception. -/
inductive TaskOutcome where
  | res (returncode : Int) (stderr : String) (outputExists : Bool)
  | exn (msg : String)
deriving DecidableEq

/-- Models `os.path.join` with a POSIX separator. -/
def pathJoin (d f : String) : String := d ++ "/" ++ f

/-- The stderr text recorded when the upscaled output file is missing
(line 703). -/
def missingOutputMsg (outputPath : String) : String :=
  "업스케일된 파일이 생성되지 않았습니다: " ++ outputPath

/-- The `failed_frames` entries that handling one completed frame appends,
in order: the non-zero-exit-code entry (lines 688-693), then the
missing-output-file entry (lines 699-704); an exception from
`future.result()` appends a single entry (lines 720-725). -/
def requiredFailures (out : String → TaskOutcome) (outDir f : String) : List Failure :=
  match out f with
  | TaskOutcome.res rc err ex =>
    (if rc ≠ 0 then [⟨f, rc, err⟩] else []) ++
      (if ex = false then [⟨f, -1, missingOutputMsg (pathJoin outDir f)⟩] else [])
  | TaskOutcome.exn m => [⟨f, -1, m⟩]

/-- The loop state of `run_upscale`'s parallel section: the not-yet-submitted
tail of `work_queue`, the frames with an in-flight future (`future_to_frame`),
the ghost history of submissions and of handled completions, plus the
`completed_count` counter and the `failed_frames` list. -/
structure LoopState where
  pending : List String
  inflight : List String
  submitted : List String
  processed : List String
  completed_count : Nat
  failed : List Failure
deriving DecidableEq

/-- Handling the completion of frame `f` (lines 675-727): record failures,
bump `completed_count` on a normal result (the exception branch does not bump
it), and mark the frame as handled. -/
def processCompletion (out : String → TaskOutcome) (outDir f : String)
    (s : LoopState) : LoopState :=
  { s with
    failed := s.failed ++ requiredFailures out outDir f
    completed_count :=
      match out f with
      | TaskOutcome.res _ _ _ => s.completed_count + 1
      | TaskOutcome.exn _ => s.completed_count
    processed := s.processed ++ [f] }

/-- Submitting the next pending task, if any (lines 711-718 and 730-736). -/
def submitNext (s : LoopState) : LoopState :=
  match s.pending with
  | [] => s
  | f :: rest =>
    { s with pending := rest, inflight := s.inflight ++ [f], submitted := s.submitted ++ [f] }

/-- One iteration of the `while future_to_frame` loop (lines 673-739): the
scheduler hands back exactly one completed future — modelled as the in-flight
frame at index `i % |inflight|` — which is popped, handled, and replaced by
the next pending task if one remains. -/
def stepLoop (out : String → TaskOutcome) (outDir : String) (s : LoopState) (i : Nat) :
    LoopState :=
  if s.inflight = [] then s
  else
    let j := i % s.inflight.length
    let f := s.inflight.getD j ""
    submitNext (processCompletion out outDir f { s with inflight := s.inflight.eraseIdx j })

/-- The `while future_to_frame:` driver, fuelled.  `sched` chooses which
in-flight future completes at each iteration; the fuel is an iteration bound
(the loop is proved below to drain within the initial task count). -/
def runLoop (out : String → TaskOutcome) (outDir : String) (sched : Nat → Nat) :
    Nat → Nat → LoopState → LoopState
  | 0, _, s => s
  | fuel + 1, k, s =>
    if s.inflight = [] then s
    else runLoop out outDir sched fuel (k + 1) (stepLoop out outDir s (sched k))

/-- The state after the initial batch submission (lines 659-671).  The first
`min(num_workers * 2, len(work_args))` tasks are submitted up front by
iterating a fresh `enumerate(work_args)` (lines 664-668).  Crucially,
`work_queue = iter(work_args)` (line 659) is NOT advanced by that initial
loop, so the queue the completion handlers later draw from still holds all
`len(work_args)` tasks, starting again at `work_args[0]`: the pending queue
is the whole frame list, and the initial-batch frames will be submitted a
second time. -/
def initState (frames : List String) (num_workers : Nat) : LoopState :=
  let b := min (num_workers * 2) frames.length
  { pending := frames, inflight := frames.take b, submitted := frames.take b,
    processed := [], completed_count := 0, failed := [] }

/-- The whole parallel section of `run_upscale`: initial batch, then the
completion-driven loop, run for `|frames| + min(2 * num_workers, |frames|)`
iterations (shown below to be enough to drain every task, since the
unadvanced `work_queue` makes the code dispatch that many tasks in total). -/
def runUpscaleLoop (out : String → TaskOutcome) (outDir : String) (sched : Nat → Nat)
    (frames : List String) (num_workers : Nat) : LoopState :=
  runLoop out outDir sched (frames.length + min (num_workers * 2) frames.length) 0
    (initState frames num_workers)

/-- Number of tasks not yet handled: the loop's termination measure. -/
def loopMeasure (s : LoopState) : Nat :=
  s.pending.length + s.inflight.length

/- ## Work-args creation and the post-loop failure gate -/

/-- The per-run constants captured in each work tuple (lines 636-648). -/
structure UpscaleCtx where
  input_dir_abs : String
  output_dir_abs : String
  upscayl_path : String
  model_path_abs : String
  selected_model : String
  scale_factor : Nat
  ffmpeg_path : String
deriving DecidableEq

/-- One element of `work_args`: the 8-tuple passed to `upscale_single_frame`
(lines 637-646). -/
structure WorkArgs where
  frame_file : String
  input_dir_abs : String
  output_dir_abs : String
  upscayl_path : String
  model_path_abs : String
  selected_model : String
  scale_factor : Nat
  ffmpeg_path : String
deriving DecidableEq

/-- The `work_args` list comprehension (lines 636-648): one tuple per
extracted frame file, in order. -/
def mkWorkArgs (c : UpscaleCtx) (frames : List String) : List WorkArgs :=
  frames.map fun f =>
    ⟨f, c.input_dir_abs, c.output_dir_abs, c.upscayl_path, c.model_path_abs,
      c.selected_model, c.scale_factor, c.ffmpeg_path⟩

/-- One line of the aggregate error report:
`f"  - {fail['frame']}: {fail['stderr'][:100]}\n"` (line 745). -/
def entryLine (fail : Failure) : String :=
  "  - " ++ fail.frame ++ ": " ++ strTake fail.stderr 100 ++ "\n"

/-- The aggregate error message built at lines 743-747: the failure count,
then one line for each of the first five failures, then a `... and N more`
line when more than five failed. -/
def buildErrorMsg (failed : List Failure) : String :=
  let msg := Nat.repr failed.length ++ "개의 프레임 업스케일링 실패:\n"
  let msg := (failed.take 5).foldl (fun acc fail => acc ++ entryLine fail) msg
  if 5 < failed.length then msg ++ "  ... 외 " ++ Nat.repr (failed.length - 5) ++ "개\n"
  else msg

/-- The gate between the drained loop and the re-encode step (lines 741-748):
with a non-empty `failed_frames` list, `run_upscale` raises the aggregate
report (`Except.error`), so the merge step never runs; otherwise control
proceeds to the merge (`Except.ok`). -/
def failureGate (failed : List Failure) : Except String Unit :=
  if failed = [] then Except.ok () else Except.error (buildErrorMsg failed)

/- ## Cleanup and the top-level exception barrier (lines 455-459, 776-780) -/

/-- The two temporary directories: whether each currently exists. -/
structure FS where
  temp_frames : Bool
  upscaled_frames : Bool
deriving DecidableEq

/-- Embedding of `cleanup` (lines 455-459): each directory is removed when it
exists. -/
def cleanup (fs : FS) : FS :=
  let fs1 := if fs.temp_frames then { fs with temp_frames := false } else fs
  if fs1.upscaled_frames then { fs1 with upscaled_frames := false } else fs1

/-- The `try/except/finally` tail of `run_upscale` (lines 525-780).  The body
is any computation on the temp directories that either finishes or raises an
exception (`some msg`); the `except` clause prints the exception instead of
propagating it — so the model returns it as data — and the `finally` clause
runs `cleanup` on whatever state the body left behind. -/
def run_upscale_tail (body : FS → FS × Option String) (fs : FS) : FS × Option String :=
  let r := body fs
  (cleanup r.1, r.2)

/- ## Substring lemmas -/

theorem isPrefixL_self_append (n r : List Char) : isPrefixL n (n ++ r) = true := by
  induction n with
  | nil => rfl
  | cons a t ih => simp [isPrefixL, ih]

theorem isPrefixL_append_right (n h r : List Char) (hp : isPrefixL n h = true) :
    isPrefixL n (h ++ r) = true := by
  induction n generalizing h with
  | nil => rfl
  | cons a t ih =>
    cases h with
    | nil => simp [isPrefixL] at hp
    | cons b u =>
      simp only [isPrefixL, Bool.and_eq_true, beq_iff_eq] at hp
      simp only [List.cons_append, isPrefixL, Bool.and_eq_true, beq_iff_eq]
      exact ⟨hp.1, ih u hp.2⟩

theorem containsSub_nil_needle (h : List Char) : containsSub h [] = true := by
  cases h <;> simp [containsSub, isPrefixL]

theorem containsSub_of_isPrefixL (h n : List Char) (hp : isPrefixL n h = true) :
    containsSub h n = true := by
  cases h with
  | nil => simpa [containsSub] using hp
  | cons c t => simp [containsSub, hp]

theorem containsSub_cons (c : Char) (t n : List Char) (hc : containsSub t n = true) :
    containsSub (c :: t) n = true := by
  simp [containsSub, hc]

theorem containsSub_append_left (x h n : List Char) (hc : containsSub h n = true) :
    containsSub (x ++ h) n = true := by
  induction x with
  | nil => simpa
  | cons c t ih => exact containsSub_cons c _ n ih

theorem containsSub_append_right (h r n : List Char) (hc : containsSub h n = true) :
    containsSub (h ++ r) n = true := by
  induction h with
  | nil =>
    have hn : n = [] := by cases n <;> simp_all [containsSub, isPrefixL]
    subst hn
    exact containsSub_nil_needle r
  | cons c t ih =>
    simp only [containsSub, Bool.or_eq_true] at hc
    rcases hc with hp | hc
    · exact containsSub_of_isPrefixL _ _ (isPrefixL_append_right n (c :: t) r hp)
    · rw [List.cons_append]
      exact containsSub_cons c (t ++ r) n (ih hc)

theorem containsSub_sandwich (x n y : List Char) : containsSub (x ++ n ++ y) n = true := by
  rw [List.append_assoc]
  exact containsSub_append_left x (n ++ y) n
    (containsSub_of_isPrefixL (n ++ y) n (isPrefixL_self_append n y))

theorem strContainsSub_of_data (X n : String) (x y : List Char)
    (hX : X.data = x ++ n.data ++ y) : strContainsSub X n = true := by
  unfold strContainsSub
  rw [hX]
  exact containsSub_sandwich x n.data y

theorem strContainsSub_append_right (h r n : String) (hc : strContainsSub h n = true) :
    strContainsSub (h ++ r) n = true := by
  unfold strContainsSub at hc ⊢
  exact containsSub_append_right h.data r.data n.data hc

/- ## Division bound lemma -/

theorem lt_div_succ_mul (a b : Nat) (hb : 0 < b) : a < (a / b + 1) * b := by
  have h := Nat.div_add_mod a b
  have hm : a % b < b := Nat.mod_lt _ hb
  calc a = b * (a / b) + a % b := h.symm
  _ < b * (a / b) + b := by omega
  _ = (a / b + 1) * b := by ring

/- ## Fit-to-box bounds -/

theorem fitDimsRaw_spec (w h tw th : Nat) (hw : 0 < w) (hh : 0 < h)
    (htw : 0 < tw) (hth : 0 < th) :
    (fitDimsRaw w h tw th).1 ≤ tw ∧ (fitDimsRaw w h tw th).2 ≤ th ∧
      ratioOk w h (fitDimsRaw w h tw th).1 (fitDimsRaw w h tw th).2 := by
  unfold fitDimsRaw ratioOk
  dsimp only
  split_ifs with hA hB hC
  · -- source wider, fitted width overflows: (tw, tw * h / w)
    refine ⟨le_refl tw, ?_, Or.inr ⟨Nat.div_mul_le_self _ _, lt_div_succ_mul _ _ hw⟩⟩
    have : tw * h / w < th := (Nat.div_lt_iff_lt_mul hw).mpr (by nlinarith)
    omega
  · -- source wider, fitted width fits: (th * w / h, th)
    exact ⟨Nat.le_of_not_lt hB, le_refl th,
      Or.inl ⟨Nat.div_mul_le_self _ _, lt_div_succ_mul _ _ hh⟩⟩
  · -- source taller, fitted height overflows: (th * w / h, th)
    refine ⟨?_, le_refl th, Or.inl ⟨Nat.div_mul_le_self _ _, lt_div_succ_mul _ _ hh⟩⟩
    have : th * w / h < tw + 1 := (Nat.div_lt_iff_lt_mul hh).mpr (by nlinarith)
    omega
  · -- source taller, fitted height fits: (tw, tw * h / w)
    exact ⟨le_refl tw, Nat.le_of_not_lt hC,
      Or.inr ⟨Nat.div_mul_le_self _ _, lt_div_succ_mul _ _ hw⟩⟩

/- ## Loop invariant machinery -/

theorem perm_getD_cons_eraseIdx (l : List String) (j : Nat) (hj : j < l.length) :
    l.Perm (l.getD j "" :: l.eraseIdx j) := by
  induction l generalizing j with
  | nil => simp at hj
  | cons a t ih =>
    cases j with
    | zero => simp
    | succ j =>
      have hj' : j < t.length := by simpa using hj
      simp only [List.getD_cons_succ, List.eraseIdx_cons_succ]
      exact ((ih j hj').cons a).trans (List.Perm.swap (t.getD j "") a (t.eraseIdx j))

/-- The loop invariant of the parallel section: submissions followed by the
untouched queue give back the frame list in order; the handled frames and the
in-flight frames together are exactly the submitted ones; the queue is never
non-empty while nothing is in flight; and the failure list is exactly the
concatenation of the entries demanded by each handled frame's outcome. -/
structure LoopInv (out : String → TaskOutcome) (outDir : String) (frames : List String)
    (s : LoopState) : Prop where
  sub_pend : s.submitted ++ s.pending = frames
  perm : (s.processed ++ s.inflight).Perm s.submitted
  pump : s.pending ≠ [] → s.inflight ≠ []
  faileq : s.failed = (s.processed.map (requiredFailures out outDir)).flatten


theorem stepLoop_nil_eq (out : String → TaskOutcome) (outDir : String) (s : LoopState)
    (i : Nat) (hne : s.inflight ≠ []) (hp : s.pending = []) :
    stepLoop out outDir s i =
      { pending := []
        inflight := s.inflight.eraseIdx (i % s.inflight.length)
        submitted := s.submitted
        processed := s.processed ++ [s.inflight.getD (i % s.inflight.length) ""]
        completed_count :=
          match out (s.inflight.getD (i % s.inflight.length) "") with
          | TaskOutcome.res _ _ _ => s.completed_count + 1
          | TaskOutcome.exn _ => s.completed_count
        failed := s.failed ++
          requiredFailures out outDir (s.inflight.getD (i % s.inflight.length) "") } := by
  simp [stepLoop, processCompletion, submitNext, hne, hp]

theorem stepLoop_cons_eq (out : String → TaskOutcome) (outDir : String) (s : LoopState)
    (i : Nat) (p : String) (rest : List String) (hne : s.inflight ≠ [])
    (hp : s.pending = p :: rest) :
    stepLoop out outDir s i =
      { pending := rest
        inflight := s.inflight.eraseIdx (i % s.inflight.length) ++ [p]
        submitted := s.submitted ++ [p]
        processed := s.processed ++ [s.inflight.getD (i % s.inflight.length) ""]
        completed_count :=
          match out (s.inflight.getD (i % s.inflight.length) "") with
          | TaskOutcome.res _ _ _ => s.completed_count + 1
          | TaskOutcome.exn _ => s.completed_count
        failed := s.failed ++
          requiredFailures out outDir (s.inflight.getD (i % s.inflight.length) "") } := by
  simp [stepLoop, processCompletion, submitNext, hne, hp]

theorem stepLoop_inv (out : String → TaskOutcome) (outDir : String) (frames : List String)
    (s : LoopState) (i : Nat) (hne : s.inflight ≠ [])
    (hinv : LoopInv out outDir frames s) :
    LoopInv out outDir frames (stepLoop out outDir s i) ∧
      loopMeasure (stepLoop out outDir s i) + 1 = loopMeasure s := by
  have hlen : 0 < s.inflight.length := List.length_pos.mpr hne
  have hjlt : i % s.inflight.length < s.inflight.length := Nat.mod_lt _ hlen
  have hperm := perm_getD_cons_eraseIdx s.inflight _ hjlt
  have herase := List.length_eraseIdx_add_one hjlt
  cases hp : s.pending with
  | nil =>
    rw [stepLoop_nil_eq out outDir s i hne hp]
    refine ⟨⟨?_, ?_, ?_, ?_⟩, ?_⟩
    · dsimp only
      rw [List.append_nil]
      have h1 := hinv.sub_pend
      rw [hp, List.append_nil] at h1
      exact h1
    · dsimp only
      rw [List.append_assoc, List.singleton_append]
      exact (List.Perm.append_left s.processed hperm.symm).trans hinv.perm
    · intro hcon
      exact absurd rfl hcon
    · dsimp only
      rw [hinv.faileq, List.map_append, List.flatten_append]
      simp
    · simp only [loopMeasure, List.length_nil, hp]
      omega
  | cons p rest =>
    rw [stepLoop_cons_eq out outDir s i p rest hne hp]
    refine ⟨⟨?_, ?_, ?_, ?_⟩, ?_⟩
    · dsimp only
      rw [List.append_assoc, List.singleton_append]
      have h1 := hinv.sub_pend
      rw [hp] at h1
      exact h1
    · dsimp only
      rw [← List.append_assoc, List.append_assoc s.processed, List.singleton_append]
      exact List.Perm.append_right [p]
        ((List.Perm.append_left s.processed hperm.symm).trans hinv.perm)
    · intro _
      dsimp only
      simp
    · dsimp only
      rw [hinv.faileq, List.map_append, List.flatten_append]
      simp
    · simp only [loopMeasure, List.length_append, List.length_cons, List.length_nil, hp]
      omega

theorem runLoop_drains (out : String → TaskOutcome) (outDir : String) (sched : Nat → Nat)
    (frames : List String) :
    ∀ fuel k s, LoopInv out outDir frames s → loopMeasure s ≤ fuel →
      LoopInv out outDir frames (runLoop out outDir sched fuel k s) ∧
        (runLoop out outDir sched fuel k s).inflight = [] ∧
        (runLoop out outDir sched fuel k s).pending = [] := by
  intro fuel
  induction fuel with
  | zero =>
    intro k s hinv hm
    have hz : s.pending.length = 0 ∧ s.inflight.length = 0 := by
      unfold loopMeasure at hm
      omega
    exact ⟨hinv, List.eq_nil_of_length_eq_zero hz.2, List.eq_nil_of_length_eq_zero hz.1⟩
  | succ fuel ih =>
    intro k s hinv hm
    simp only [runLoop]
    by_cases hne : s.inflight = []
    · rw [if_pos hne]
      have hpend : s.pending = [] := by
        by_contra hcon
        exact hinv.pump hcon hne
      exact ⟨hinv, hne, hpend⟩
    · rw [if_neg hne]
      obtain ⟨hinv', hm'⟩ := stepLoop_inv out outDir frames s (sched k) hne hinv
      exact ih (k + 1) _ hinv' (by omega)

/-- The drained final state of the parallel section.  Because the code's
`work_queue` is never advanced past the initial batch, the full submission
history is the initial batch followed by the entire frame list again — the
first `min(2 * num_workers, |frames|)` frames are dispatched twice.  Every
submitted task is eventually handled, nothing is left pending or in flight,
and the failure list is the concatenation of what each handled task's
outcome demands. -/
theorem runUpscaleLoop_final (out : String → TaskOutcome) (outDir : String)
    (sched : Nat → Nat) (frames : List String) (num_workers : Nat) (hw : 1 ≤ num_workers) :
    (runUpscaleLoop out outDir sched frames num_workers).submitted =
      frames.take (min (num_workers * 2) frames.length) ++ frames ∧
    (runUpscaleLoop out outDir sched frames num_workers).processed.Perm
      (frames.take (min (num_workers * 2) frames.length) ++ frames) ∧
    (runUpscaleLoop out outDir sched frames num_workers).inflight = [] ∧
    (runUpscaleLoop out outDir sched frames num_workers).pending = [] ∧
    (runUpscaleLoop out outDir sched frames num_workers).failed =
      ((runUpscaleLoop out outDir sched frames num_workers).processed.map
        (requiredFailures out outDir)).flatten := by
  have hinv0 : LoopInv out outDir
      (frames.take (min (num_workers * 2) frames.length) ++ frames)
      (initState frames num_workers) := by
    constructor
    · rfl
    · simp [initState]
    · intro hd
      have hd' : frames ≠ [] := by
        simpa [initState] using hd
      have hld := List.length_pos.mpr hd'
      apply List.length_pos.mp
      simp only [initState, List.length_take]
      omega
    · simp [initState]
  have hm0 : loopMeasure (initState frames num_workers) ≤
      frames.length + min (num_workers * 2) frames.length := by
    simp only [loopMeasure, initState, List.length_take]
    omega
  have hrr : runUpscaleLoop out outDir sched frames num_workers =
      runLoop out outDir sched (frames.length + min (num_workers * 2) frames.length) 0
        (initState frames num_workers) := rfl
  obtain ⟨hinv, hifl, hpend⟩ :=
    runLoop_drains out outDir sched
      (frames.take (min (num_workers * 2) frames.length) ++ frames)
      (frames.length + min (num_workers * 2) frames.length) 0 _ hinv0 hm0
  rw [hrr]
  have h1 := hinv.sub_pend
  rw [hpend, List.append_nil] at h1
  have h2 := hinv.perm
  rw [hifl, List.append_nil, h1] at h2
  exact ⟨h1, h2, hifl, hpend, hinv.faileq⟩

/- ## Claim theorems -/

/-- C3 (counterexample): the claimed description of
`calculate_optimal_workers` fails on the code.  At `cpu_count = 1`,
`gpu_count = 1` the result is `1`, refuting "at least 2 whenever
`gpu_count > 0`"; at `cpu_count = 16`, `gpu_count = 0` the result is `8`,
not 75% of the cores (12); at `cpu_count = 2`, `gpu_count = 1` the result is
`2`, not `min(cores/2, 4) = 1`.  The claim's concrete instance
`cpu_count = 8`, `gpu_count = 2 ↦ 2` does hold. -/
theorem c3_counterexample :
    calculate_optimal_workers 1 1 false = 1 ∧
    ¬ 2 ≤ calculate_optimal_workers 1 1 false ∧
    calculate_optimal_workers 16 0 false = 8 ∧
    calculate_optimal_workers 16 0 false ≠ 3 * 16 / 4 ∧
    calculate_optimal_workers 2 1 false = 2 ∧
    calculate_optimal_workers 2 1 false ≠ min (2 / 2) 4 ∧
    calculate_optimal_workers 8 2 false = 2 := by
  decide

/-- C3 (amended): for every `cpu_count ≥ 1` and `gpu_count ≥ 0`,
`calculate_optimal_workers` returns `min(max(1, ⌊0.75·cores⌋), cores, 8)`
when `gpu_count = 0`; `min(max(2, min(cores // 2, 4)), cores, 8)` when
`gpu_count = 1`; `min(max(2, min(gpu_count, cores)), cores, 8)` when
`gpu_count > 1`.  The result never exceeds 8, never exceeds `cpu_count`, and
is at least 2 whenever `gpu_count > 0` and `cpu_count ≥ 2` (the floor of 2 is
itself clipped by the core count); `cpu_count = 8`, `gpu_count = 2` yields
2. -/
theorem c3_calculate_optimal_workers (cpu gpu : Nat) (g : Bool) (hcpu : 1 ≤ cpu) :
    calculate_optimal_workers cpu gpu g ≤ 8 ∧
    calculate_optimal_workers cpu gpu g ≤ cpu ∧
    (gpu = 0 → calculate_optimal_workers cpu gpu g = min (min (max 1 (3 * cpu / 4)) cpu) 8) ∧
    (gpu = 1 →
      calculate_optimal_workers cpu gpu g = min (min (max 2 (min (cpu / 2) 4)) cpu) 8) ∧
    (1 < gpu →
      calculate_optimal_workers cpu gpu g = min (min (max 2 (min gpu cpu)) cpu) 8) ∧
    (0 < gpu → 2 ≤ cpu → 2 ≤ calculate_optimal_workers cpu gpu g) ∧
    calculate_optimal_workers 8 2 g = 2 := by
  refine ⟨?_, ?_, ?_, ?_, ?_, ?_, rfl⟩ <;>
    simp only [calculate_optimal_workers] <;> split_ifs <;> omega

/-- C3 witness: the amended statement instantiated at 8 cores and 2
accelerators. -/
theorem c3_witness :
    calculate_optimal_workers 8 2 false ≤ 8 ∧
    calculate_optimal_workers 8 2 false ≤ 8 ∧
    ((2 : Nat) = 0 → calculate_optimal_workers 8 2 false = min (min (max 1 (3 * 8 / 4)) 8) 8) ∧
    ((2 : Nat) = 1 →
      calculate_optimal_workers 8 2 false = min (min (max 2 (min (8 / 2) 4)) 8) 8) ∧
    ((1 : Nat) < 2 →
      calculate_optimal_workers 8 2 false = min (min (max 2 (min 2 8)) 8) 8) ∧
    ((0 : Nat) < 2 → 2 ≤ 8 → 2 ≤ calculate_optimal_workers 8 2 false) ∧
    calculate_optimal_workers 8 2 false = 2 :=
  c3_calculate_optimal_workers 8 2 false (by decide)

/-- C9: the `finally` clause of `run_upscale` executes `cleanup` no matter
how the body ended, and `cleanup` removes both temporary directories; a body
exception is reported (printed) as a value rather than propagated — the model
is a total function whose error channel is plain data. -/
theorem c9_cleanup_always_runs (body : FS → FS × Option String) (fs : FS) :
    (run_upscale_tail body fs).1.temp_frames = false ∧
    (run_upscale_tail body fs).1.upscaled_frames = false ∧
    (∀ msg, (body fs).2 = some msg → (run_upscale_tail body fs).2 = some msg) := by
  refine ⟨?_, ?_, ?_⟩
  · unfold run_upscale_tail cleanup
    dsimp only
    split_ifs <;> simp_all
  · unfold run_upscale_tail cleanup
    dsimp only
    split_ifs <;> simp_all
  · intro msg hmsg
    unfold run_upscale_tail
    exact hmsg

/-- C9 witness: a body that raises after deleting nothing — cleanup still
removes both directories, and the exception is reported, not rethrown. -/
theorem c9_witness :
    (run_upscale_tail (fun fs => (fs, some "boom")) ⟨true, true⟩).1.temp_frames = false ∧
    (run_upscale_tail (fun fs => (fs, some "boom")) ⟨true, true⟩).1.upscaled_frames = false ∧
    (run_upscale_tail (fun fs => (fs, some "boom")) ⟨true, true⟩).2 = some "boom" := by
  obtain ⟨h1, h2, h3⟩ := c9_cleanup_always_runs (fun fs => (fs, some "boom")) ⟨true, true⟩
  exact ⟨h1, h2, h3 "boom" rfl⟩

/-- C10: when one frame's invocation both exits non-zero and leaves the
output file missing, the completion handler appends two separate failure
entries for that single frame — one per check — so the aggregate failure
count can exceed the number of distinct failed frames. -/
theorem c10_two_entries_per_doubly_failed_frame (out : String → TaskOutcome)
    (outDir f : String) (s : LoopState) (rc : Int) (err : String)
    (hout : out f = TaskOutcome.res rc err false) (hrc : rc ≠ 0) :
    (processCompletion out outDir f s).failed =
      s.failed ++
        [⟨f, rc, err⟩, ⟨f, -1, missingOutputMsg (pathJoin outDir f)⟩] ∧
    (processCompletion out outDir f s).failed.length = s.failed.length + 2 := by
  have h : (processCompletion out outDir f s).failed =
      s.failed ++ requiredFailures out outDir f := rfl
  rw [h]
  unfold requiredFailures
  rw [hout]
  simp [hrc]

/-- C10 witness: a concrete frame whose invocation exits 1 with no output
produces exactly two failure entries. -/
theorem c10_witness :
    (processCompletion (fun _ => TaskOutcome.res 1 "boom" false) "upscaled_frames"
        "frame_00001.png" ⟨[], [], [], [], 0, []⟩).failed =
      [⟨"frame_00001.png", 1, "boom"⟩,
       ⟨"frame_00001.png", -1,
        missingOutputMsg (pathJoin "upscaled_frames" "frame_00001.png")⟩] ∧
    (processCompletion (fun _ => TaskOutcome.res 1 "boom" false) "upscaled_frames"
        "frame_00001.png" ⟨[], [], [], [], 0, []⟩).failed.length = 0 + 2 := by
  obtain ⟨h1, h2⟩ := c10_two_entries_per_doubly_failed_frame
    (fun _ => TaskOutcome.res 1 "boom" false) "upscaled_frames" "frame_00001.png"
    ⟨[], [], [], [], 0, []⟩ 1 "boom" rfl (by decide)
  exact ⟨h1, h2⟩

/-- C5: `detect_video_encoder` always returns exactly one of `h264_nvenc`,
`h264_amf`, `libx264`; it never returns a hardware encoder whose synthetic
`test_encoder` probe failed; and the failure paths — a probe exception or a
non-zero exit of the encoder listing — always resolve to the software
encoder (the model is a total function, so no path raises). -/
theorem c5_detect_encoder_sound (env : EncoderEnv) :
    ((detect_video_encoder env = "h264_nvenc" ∧
        test_encoder env.nvencTest nvenc_errors = true) ∨
     (detect_video_encoder env = "h264_amf" ∧
        test_encoder env.amfTest amf_errors = true) ∨
     detect_video_encoder env = "libx264") ∧
    (∀ m nv am, detect_video_encoder ⟨ProcOutcome.exn m, nv, am⟩ = "libx264") ∧
    (∀ rc out err nv am, rc ≠ 0 →
      detect_video_encoder ⟨ProcOutcome.ok rc out err, nv, am⟩ = "libx264") := by
  refine ⟨?_, ?_, ?_⟩
  · obtain ⟨probe, nv, am⟩ := env
    cases probe with
    | exn m => exact Or.inr (Or.inr rfl)
    | ok rc stdout stderr =>
      unfold detect_video_encoder detectVideoEncoderT
      dsimp only
      split_ifs with h1 h2 h3 h4 h5 h6 h7
      · exact Or.inr (Or.inr rfl)
      · exact Or.inl ⟨rfl, h3⟩
      · exact Or.inr (Or.inl ⟨rfl, h5⟩)
      · exact Or.inr (Or.inr rfl)
      · exact Or.inr (Or.inr rfl)
      · exact Or.inr (Or.inl ⟨rfl, h7⟩)
      · exact Or.inr (Or.inr rfl)
      · exact Or.inr (Or.inr rfl)
  · intro m nv am
    rfl
  · intro rc out err nv am hrc
    simp [detect_video_encoder, detectVideoEncoderT, hrc]

/-- C5 witness: the soundness disjunction at a concrete environment, and the
non-zero listing exit code resolving to the software encoder. -/
theorem c5_witness :
    ((detect_video_encoder ⟨ProcOutcome.ok 0 "" "", ProcOutcome.ok 0 "" "",
        ProcOutcome.ok 0 "" ""⟩ = "h264_nvenc" ∧
      test_encoder (ProcOutcome.ok 0 "" "") nvenc_errors = true) ∨
     (detect_video_encoder ⟨ProcOutcome.ok 0 "" "", ProcOutcome.ok 0 "" "",
        ProcOutcome.ok 0 "" ""⟩ = "h264_amf" ∧
      test_encoder (ProcOutcome.ok 0 "" "") amf_errors = true) ∨
     detect_video_encoder ⟨ProcOutcome.ok 0 "" "", ProcOutcome.ok 0 "" "",
        ProcOutcome.ok 0 "" ""⟩ = "libx264") ∧
    detect_video_encoder ⟨ProcOutcome.ok 1 "h264_nvenc h264_amf" "",
      ProcOutcome.ok 0 "" "", ProcOutcome.ok 0 "" ""⟩ = "libx264" :=
  ⟨(c5_detect_encoder_sound ⟨ProcOutcome.ok 0 "" "", ProcOutcome.ok 0 "" "",
      ProcOutcome.ok 0 "" ""⟩).1,
   (c5_detect_encoder_sound ⟨ProcOutcome.ok 1 "h264_nvenc h264_amf" "",
      ProcOutcome.ok 0 "" "", ProcOutcome.ok 0 "" ""⟩).2.2 1 "h264_nvenc h264_amf" ""
      (ProcOutcome.ok 0 "" "") (ProcOutcome.ok 0 "" "") (by decide)⟩

/-- C6: `test_encoder` returns `true` iff the probing subprocess exited with
code zero and none of the vendor's failure substrings occurs,
case-insensitively, in its stderr text; any exception makes it return
`false`. -/
theorem c6_test_encoder_characterisation (o : ProcOutcome) (kws : List String) :
    (test_encoder o kws = true ↔
      ∃ rc out err, o = ProcOutcome.ok rc out err ∧ rc = 0 ∧
        ∀ k ∈ kws, strContainsSub (strLower err) (strLower k) = false) ∧
    (∀ m, test_encoder (ProcOutcome.exn m) kws = false) := by
  constructor
  · cases o with
    | exn m => simp [test_encoder]
    | ok rc stdout stderr =>
      unfold test_encoder
      constructor
      · intro hyp
        simp only [Bool.and_eq_true, beq_iff_eq, Bool.not_eq_true', List.any_eq_false,
          Bool.not_eq_true] at hyp
        exact ⟨rc, stdout, stderr, rfl, hyp.1, hyp.2⟩
      · rintro ⟨rc', out', err', heq, h0, hk⟩
        cases heq
        simp only [Bool.and_eq_true, beq_iff_eq, Bool.not_eq_true', List.any_eq_false,
          Bool.not_eq_true]
        exact ⟨h0, hk⟩
  · intro m
    rfl

/-- C6 witness: a clean zero-exit probe passes, an exception fails. -/
theorem c6_witness :
    test_encoder (ProcOutcome.ok 0 "" "") nvenc_errors = true ∧
    test_encoder (ProcOutcome.exn "timeout") nvenc_errors = false := by
  constructor
  · exact (c6_test_encoder_characterisation (ProcOutcome.ok 0 "" "") nvenc_errors).1.mpr
      ⟨0, "", "", rfl, rfl, by decide⟩
  · exact (c6_test_encoder_characterisation (ProcOutcome.ok 0 "" "") nvenc_errors).2 "timeout"

/-- C7: when the `ffmpeg -encoders` listing contains neither `h264_nvenc`
nor `h264_amf`, `detect_video_encoder` returns `libx264` and runs no
`test_encoder` subprocess at all (the instrumented trace is empty). -/
theorem c7_no_vendor_string_skips_tests (env : EncoderEnv) (rc : Int) (out err : String)
    (hp : env.encodersProbe = ProcOutcome.ok rc out err)
    (hnv : strContainsSub out "h264_nvenc" = false)
    (hamf : strContainsSub out "h264_amf" = false) :
    detectVideoEncoderT env = ("libx264", []) := by
  obtain ⟨probe, nv, am⟩ := env
  dsimp only at hp
  subst hp
  unfold detectVideoEncoderT
  dsimp only
  split_ifs with h1 h2 h3 <;> simp_all

/-- C7 witness: an encoder listing advertising only software encoders. -/
theorem c7_witness :
    detectVideoEncoderT
      ⟨ProcOutcome.ok 0 "V..... libx264  V..... mpeg4" "", ProcOutcome.exn "never run",
        ProcOutcome.exn "never run"⟩ = ("libx264", []) :=
  c7_no_vendor_string_skips_tests _ 0 "V..... libx264  V..... mpeg4" "" rfl
    (by decide) (by decide)

/-- C4: for every source resolution with positive axes and every target box
from the resolution menu, the final fitted dimensions are at most the target
box in both axes and both even, and the pre-even-rounding pair preserves the
source aspect ratio to within floor rounding (each axis within 1 of the even
result).  Real division is modelled exactly; `int` truncation is `Nat` floor
division. -/
theorem c4_fit_dimensions (w h : Nat) (hw : 1 ≤ w) (hh : 1 ≤ h) (key nm : String)
    (tw th : Nat) (hmem : (key, nm, tw, th) ∈ RES_OPTIONS) :
    (fitDims w h tw th).1 ≤ tw ∧ (fitDims w h tw th).2 ≤ th ∧
    2 ∣ (fitDims w h tw th).1 ∧ 2 ∣ (fitDims w h tw th).2 ∧
    ratioOk w h (fitDimsRaw w h tw th).1 (fitDimsRaw w h tw th).2 ∧
    (fitDimsRaw w h tw th).1 ≤ (fitDims w h tw th).1 + 1 ∧
    (fitDimsRaw w h tw th).2 ≤ (fitDims w h tw th).2 + 1 := by
  have hbox : 0 < tw ∧ 0 < th := by
    simp only [RES_OPTIONS, List.mem_cons, List.not_mem_nil, or_false,
      Prod.mk.injEq] at hmem
    rcases hmem with ⟨_, _, h3, h4⟩ | ⟨_, _, h3, h4⟩ | ⟨_, _, h3, h4⟩ | ⟨_, _, h3, h4⟩ <;>
      omega
  obtain ⟨htw, hth⟩ := hbox
  obtain ⟨hb1, hb2, hr⟩ := fitDimsRaw_spec w h tw th hw hh htw hth
  have hfd : fitDims w h tw th =
      ((fitDimsRaw w h tw th).1 - (fitDimsRaw w h tw th).1 % 2,
       (fitDimsRaw w h tw th).2 - (fitDimsRaw w h tw th).2 % 2) := rfl
  rw [hfd]
  dsimp only
  exact ⟨by omega, by omega, by omega, by omega, hr, by omega, by omega⟩

/-- C4 witness: a 1920x1080 source fitted into the HD menu box. -/
theorem c4_witness :
    (fitDims 1920 1080 1280 720).1 ≤ 1280 ∧ (fitDims 1920 1080 1280 720).2 ≤ 720 ∧
    2 ∣ (fitDims 1920 1080 1280 720).1 ∧ 2 ∣ (fitDims 1920 1080 1280 720).2 ∧
    ratioOk 1920 1080 (fitDimsRaw 1920 1080 1280 720).1 (fitDimsRaw 1920 1080 1280 720).2 ∧
    (fitDimsRaw 1920 1080 1280 720).1 ≤ (fitDims 1920 1080 1280 720).1 + 1 ∧
    (fitDimsRaw 1920 1080 1280 720).2 ≤ (fitDims 1920 1080 1280 720).2 + 1 :=
  c4_fit_dimensions 1920 1080 (by decide) (by decide) "1" "HD" 1280 720 (by decide)

/-- C1 (code bug): the claim "exactly one task per frame" matches the
code's own comments (lines 657-658: the initial batch is pre-submitted and
"the rest" are submitted dynamically) but not its behaviour: since
`work_queue = iter(work_args)` is never advanced by the initial-batch loop,
the completion handlers re-draw the queue from `work_args[0]`, so the loop
dispatches `|frames| + min(2 * num_workers, |frames|)` tasks — every
initial-batch frame twice.  The loop does still drain: nothing is left
pending or permanently in flight under any completion schedule. -/
theorem c1_double_dispatch (out : String → TaskOutcome) (outDir : String)
    (sched : Nat → Nat) (frames : List String) (num_workers : Nat)
    (hw : 1 ≤ num_workers) :
    (runUpscaleLoop out outDir sched frames num_workers).submitted =
      frames.take (min (num_workers * 2) frames.length) ++ frames ∧
    (runUpscaleLoop out outDir sched frames num_workers).submitted.length =
      frames.length + min (num_workers * 2) frames.length ∧
    (runUpscaleLoop out outDir sched frames num_workers).inflight = [] ∧
    (runUpscaleLoop out outDir sched frames num_workers).pending = [] := by
  obtain ⟨h1, _, h3, h4, _⟩ := runUpscaleLoop_final out outDir sched frames num_workers hw
  refine ⟨h1, ?_, h3, h4⟩
  rw [h1, List.length_append, List.length_take]
  omega

/-- C1 witness: at the failing input — three frames, one worker — the code
dispatches five tasks, not three: the submission history repeats the two
initial-batch frames. -/
theorem c1_witness :
    (runUpscaleLoop (fun _ => TaskOutcome.res 0 "" true) "upscaled_frames" (fun _ => 0)
        ["frame_00001.png", "frame_00002.png", "frame_00003.png"] 1).submitted =
      ["frame_00001.png", "frame_00002.png", "frame_00001.png", "frame_00002.png",
        "frame_00003.png"] ∧
    (runUpscaleLoop (fun _ => TaskOutcome.res 0 "" true) "upscaled_frames" (fun _ => 0)
        ["frame_00001.png", "frame_00002.png", "frame_00003.png"] 1).submitted.length = 5 ∧
    (runUpscaleLoop (fun _ => TaskOutcome.res 0 "" true) "upscaled_frames" (fun _ => 0)
        ["frame_00001.png", "frame_00002.png", "frame_00003.png"] 1).inflight = [] ∧
    (runUpscaleLoop (fun _ => TaskOutcome.res 0 "" true) "upscaled_frames" (fun _ => 0)
        ["frame_00001.png", "frame_00002.png", "frame_00003.png"] 1).pending = [] :=
  c1_double_dispatch (fun _ => TaskOutcome.res 0 "" true) "upscaled_frames" (fun _ => 0)
    ["frame_00001.png", "frame_00002.png", "frame_00003.png"] 1 (by decide)

/-- C2 (code bug): one work tuple is created per extracted frame
(`work_args` projects back to the frame list), but "consumed exactly once"
and "no frame revisits a state" fail: because the unadvanced `work_queue`
re-yields the initial batch, every frame of the initial batch is submitted
twice and handled twice — pending, dispatched, completed, then dispatched
again. -/
theorem c2_double_consumption (c : UpscaleCtx) (out : String → TaskOutcome)
    (outDir : String) (sched : Nat → Nat) (frames : List String) (num_workers : Nat)
    (hw : 1 ≤ num_workers) (hnd : frames.Nodup) :
    (mkWorkArgs c frames).map WorkArgs.frame_file = frames ∧
    ∀ f ∈ frames.take (min (num_workers * 2) frames.length),
      (runUpscaleLoop out outDir sched frames num_workers).submitted.count f = 2 ∧
      (runUpscaleLoop out outDir sched frames num_workers).processed.count f = 2 := by
  obtain ⟨h1, h2, _, _, _⟩ := runUpscaleLoop_final out outDir sched frames num_workers hw
  refine ⟨?_, ?_⟩
  · unfold mkWorkArgs
    rw [List.map_map]
    exact List.map_id frames
  · intro f hf
    have hmem : f ∈ frames := List.take_subset _ _ hf
    have hndt : (frames.take (min (num_workers * 2) frames.length)).Nodup :=
      List.Nodup.sublist (List.take_sublist _ _) hnd
    have hc2 : (frames.take (min (num_workers * 2) frames.length) ++ frames).count f = 2 := by
      rw [List.count_append, List.count_eq_one_of_mem hndt hf,
        List.count_eq_one_of_mem hnd hmem]
    constructor
    · rw [h1]
      exact hc2
    · rw [h2.count_eq f]
      exact hc2

/-- C2 witness: at the failing input — three distinct frames, one worker —
each of the two initial-batch frames is submitted twice and handled twice. -/
theorem c2_witness :
    (mkWorkArgs ⟨"temp_frames", "upscaled_frames", "upscayl-bin", "models",
        "realesrgan-x4plus", 2, "ffmpeg"⟩
      ["frame_00001.png", "frame_00002.png", "frame_00003.png"]).map WorkArgs.frame_file =
      ["frame_00001.png", "frame_00002.png", "frame_00003.png"] ∧
    ∀ f ∈ ["frame_00001.png", "frame_00002.png"],
      (runUpscaleLoop (fun _ => TaskOutcome.res 0 "" true) "upscaled_frames" (fun _ => 0)
        ["frame_00001.png", "frame_00002.png", "frame_00003.png"] 1).submitted.count f = 2 ∧
      (runUpscaleLoop (fun _ => TaskOutcome.res 0 "" true) "upscaled_frames" (fun _ => 0)
        ["frame_00001.png", "frame_00002.png", "frame_00003.png"] 1).processed.count f = 2 :=
  c2_double_consumption
    ⟨"temp_frames", "upscaled_frames", "upscayl-bin", "models", "realesrgan-x4plus", 2,
      "ffmpeg"⟩
    (fun _ => TaskOutcome.res 0 "" true) "upscaled_frames" (fun _ => 0)
    ["frame_00001.png", "frame_00002.png", "frame_00003.png"] 1 (by decide) (by decide)

/- ## Aggregate error-report lemmas -/

theorem strData_append (a b : String) : (a ++ b).data = a.data ++ b.data := rfl

theorem strContainsSub_foldl_entry (l : List Failure) (acc n : String)
    (hacc : strContainsSub acc n = true) :
    strContainsSub (l.foldl (fun a fail => a ++ entryLine fail) acc) n = true := by
  induction l generalizing acc with
  | nil => simpa using hacc
  | cons e t ih =>
    simp only [List.foldl_cons]
    exact ih (acc ++ entryLine e) (strContainsSub_append_right acc (entryLine e) n hacc)

theorem entryLine_mentions_frame (acc : String) (e : Failure) :
    strContainsSub (acc ++ entryLine e) e.frame = true := by
  apply strContainsSub_of_data _ _ (acc.data ++ "  - ".data)
    ((": " ++ strTake e.stderr 100 ++ "\n").data)
  simp [entryLine, strData_append, List.append_assoc]

theorem entryLine_mentions_stderr (acc : String) (e : Failure) :
    strContainsSub (acc ++ entryLine e) (strTake e.stderr 100) = true := by
  apply strContainsSub_of_data _ _ (acc.data ++ "  - ".data ++ e.frame.data ++ ": ".data)
    ("\n".data)
  simp [entryLine, strData_append, List.append_assoc]

theorem buildErrorMsg_mentions (failed : List Failure) (e : Failure)
    (he : e ∈ failed.take 5) :
    strContainsSub (buildErrorMsg failed) e.frame = true ∧
    strContainsSub (buildErrorMsg failed) (strTake e.stderr 100) = true := by
  obtain ⟨l1, l2, hsplit⟩ := List.append_of_mem he
  unfold buildErrorMsg
  dsimp only
  rw [hsplit, List.foldl_append]
  simp only [List.foldl_cons]
  constructor
  · split_ifs
    · refine strContainsSub_append_right _ _ _ ?_
      refine strContainsSub_append_right _ _ _ ?_
      refine strContainsSub_append_right _ _ _ ?_
      exact strContainsSub_foldl_entry l2 _ _ (entryLine_mentions_frame _ e)
    · exact strContainsSub_foldl_entry l2 _ _ (entryLine_mentions_frame _ e)
  · split_ifs
    · refine strContainsSub_append_right _ _ _ ?_
      refine strContainsSub_append_right _ _ _ ?_
      refine strContainsSub_append_right _ _ _ ?_
      exact strContainsSub_foldl_entry l2 _ _ (entryLine_mentions_stderr _ e)
    · exact strContainsSub_foldl_entry l2 _ _ (entryLine_mentions_stderr _ e)

/-- C8 (amended): when some frame's invocation exits non-zero or leaves its
output file missing, that frame is recorded in `failed_frames` with its
diagnostic; sibling tasks are not aborted — every frame is still handled (at
least once; the unadvanced work queue even makes initial-batch frames be
handled twice) — and after the loop drains `run_upscale` raises the single
aggregate report instead of re-encoding.  The report lists identifier and
truncated diagnostic for the first five recorded failures only (plus the
total count), so a failing frame's identifier appears in the report whenever
its entry is among the first five. -/
theorem c8_failure_report (out : String → TaskOutcome) (outDir : String) (sched : Nat → Nat)
    (frames : List String) (num_workers : Nat) (hw : 1 ≤ num_workers) (f : String)
    (hf : f ∈ frames) (rc : Int) (err : String) (ex : Bool)
    (hout : out f = TaskOutcome.res rc err ex) (hfail : rc ≠ 0 ∨ ex = false) :
    (∃ e ∈ (runUpscaleLoop out outDir sched frames num_workers).failed, e.frame = f) ∧
    (∀ g ∈ frames, g ∈ (runUpscaleLoop out outDir sched frames num_workers).processed) ∧
    (runUpscaleLoop out outDir sched frames num_workers).failed ≠ [] ∧
    failureGate (runUpscaleLoop out outDir sched frames num_workers).failed =
      Except.error
        (buildErrorMsg (runUpscaleLoop out outDir sched frames num_workers).failed) ∧
    ∀ e ∈ (runUpscaleLoop out outDir sched frames num_workers).failed.take 5,
      strContainsSub
          (buildErrorMsg (runUpscaleLoop out outDir sched frames num_workers).failed)
          e.frame = true ∧
      strContainsSub
          (buildErrorMsg (runUpscaleLoop out outDir sched frames num_workers).failed)
          (strTake e.stderr 100) = true := by
  obtain ⟨h1, h2, h3, h4, h5⟩ := runUpscaleLoop_final out outDir sched frames num_workers hw
  have hall : ∀ g ∈ frames,
      g ∈ (runUpscaleLoop out outDir sched frames num_workers).processed := by
    intro g hg
    exact h2.mem_iff.mpr (List.mem_append_right _ hg)
  have hfp : f ∈ (runUpscaleLoop out outDir sched frames num_workers).processed :=
    hall f hf
  have hereq : ∃ e ∈ requiredFailures out outDir f, e.frame = f := by
    unfold requiredFailures
    rw [hout]
    rcases hfail with hcase | hcase
    · exact ⟨⟨f, rc, err⟩, by simp [hcase], rfl⟩
    · subst hcase
      exact ⟨⟨f, -1, missingOutputMsg (pathJoin outDir f)⟩, by simp, rfl⟩
  obtain ⟨e, he1, he2⟩ := hereq
  have hef : e ∈ (runUpscaleLoop out outDir sched frames num_workers).failed := by
    rw [h5]
    exact List.mem_flatten.mpr
      ⟨requiredFailures out outDir f, List.mem_map_of_mem _ hfp, he1⟩
  have hne : (runUpscaleLoop out outDir sched frames num_workers).failed ≠ [] :=
    List.ne_nil_of_mem hef
  refine ⟨⟨e, hef, he2⟩, hall, hne, ?_, ?_⟩
  · unfold failureGate
    rw [if_neg hne]
  · intro e' he'
    exact buildErrorMsg_mentions _ e' he'

/-- C8 (counterexample): six failing frames with three workers make the
code record twelve failure entries (each frame is dispatched and fails
twice, thanks to the unadvanced work queue), and the aggregate report lists
only the first five of them, so the sixth frame's identifier does not occur
in the raised report — refuting the claim that the report contains the
identifier of every frame whose invocation failed. -/
theorem c8_counterexample :
    ("f6.png" ∈ ["f1.png", "f2.png", "f3.png", "f4.png", "f5.png", "f6.png"]) ∧
    (∃ e ∈ (runUpscaleLoop (fun _ => TaskOutcome.res 1 "" true) "upscaled_frames"
        (fun _ => 0) ["f1.png", "f2.png", "f3.png", "f4.png", "f5.png", "f6.png"] 3).failed,
      e.frame = "f6.png") ∧
    (runUpscaleLoop (fun _ => TaskOutcome.res 1 "" true) "upscaled_frames"
        (fun _ => 0)
        ["f1.png", "f2.png", "f3.png", "f4.png", "f5.png", "f6.png"] 3).failed.length = 12 ∧
    strContainsSub
      (buildErrorMsg (runUpscaleLoop (fun _ => TaskOutcome.res 1 "" true) "upscaled_frames"
        (fun _ => 0)
        ["f1.png", "f2.png", "f3.png", "f4.png", "f5.png", "f6.png"] 3).failed)
      "f6.png" = false := by
  decide

/-- C8 witness: a single failing frame — the report is raised, the frame's
identifier and diagnostic are in it, and the merge gate yields an error. -/
theorem c8_witness :
    (∃ e ∈ (runUpscaleLoop (fun _ => TaskOutcome.res 1 "boom" true) "upscaled_frames"
        (fun _ => 0) ["frame_00001.png"] 1).failed, e.frame = "frame_00001.png") ∧
    (∀ g ∈ ["frame_00001.png"],
      g ∈ (runUpscaleLoop (fun _ => TaskOutcome.res 1 "boom" true) "upscaled_frames"
        (fun _ => 0) ["frame_00001.png"] 1).processed) ∧
    (runUpscaleLoop (fun _ => TaskOutcome.res 1 "boom" true) "upscaled_frames" (fun _ => 0)
        ["frame_00001.png"] 1).failed ≠ [] ∧
    failureGate (runUpscaleLoop (fun _ => TaskOutcome.res 1 "boom" true) "upscaled_frames"
        (fun _ => 0) ["frame_00001.png"] 1).failed =
      Except.error (buildErrorMsg (runUpscaleLoop (fun _ => TaskOutcome.res 1 "boom" true)
        "upscaled_frames" (fun _ => 0) ["frame_00001.png"] 1).failed) ∧
    ∀ e ∈ (runUpscaleLoop (fun _ => TaskOutcome.res 1 "boom" true) "upscaled_frames"
        (fun _ => 0) ["frame_00001.png"] 1).failed.take 5,
      strContainsSub (buildErrorMsg (runUpscaleLoop (fun _ => TaskOutcome.res 1 "boom" true)
          "upscaled_frames" (fun _ => 0) ["frame_00001.png"] 1).failed) e.frame = true ∧
      strContainsSub (buildErrorMsg (runUpscaleLoop (fun _ => TaskOutcome.res 1 "boom" true)
          "upscaled_frames" (fun _ => 0) ["frame_00001.png"] 1).failed)
        (strTake e.stderr 100) = true :=
  c8_failure_report (fun _ => TaskOutcome.res 1 "boom" true) "upscaled_frames" (fun _ => 0)
    ["frame_00001.png"] 1 (by decide) "frame_00001.png" (by decide) 1 "boom" true rfl
    (Or.inl (by decide))
